import Mathlib

/-!
Verification of the fillpdf Go library: a shallow embedding of its FDF
form-data encoder (`createFdfFile`, `EncodeUTF16`) and of the control flow of
its public operations (`Fill`, `FillPDFToBytes`, `Merge`, the two `Multistamp`
revisions), together with theorems checking the specification's claims about
them.  Machine strings are modelled as lists of Unicode code points, byte
output as lists of naturals below 256, and the operating-system environment
(filesystem, subprocesses) as an explicit oracle threaded through each
operation.
-/

namespace Fillpdf

/-- Byte sequences, as produced by the writers in the Go code. -/
abbrev Bytes := List Nat

/-- Go strings as the encoder consumes them: `[]rune(s)` of a Go string is a
list of Unicode code points, which is how we model a string. -/
abbrev GoStr := List Nat

/-- Bytes written by `WriteString` for a pure-ASCII Go string literal. -/
def asc (s : String) : Bytes := s.data.map Char.toNat

/-- Closed model of the dynamic `interface{}` form values the library
switches on: a boolean (checkbox state) or a value rendered through
`fmt.Sprintf("%v", ·)`, of which we model text and integers. -/
inductive GoVal where
  | bool (b : Bool)
  | str (s : GoStr)
  | int (n : Int)
deriving DecidableEq

/-- Default string rendering `fmt.Sprintf("%v", value)` of a form value (a
string prints verbatim, an integer in decimal, a boolean as true/false;
the encoder only reaches this in the non-boolean cases). -/
def sprintfV : GoVal → GoStr
  | .bool true => asc "true"
  | .bool false => asc "false"
  | .str s => s
  | .int n => (toString n).data.map Char.toNat

/-- Go `utf16.EncodeRune` restricted to its in-range case: the surrogate pair
of a code point at or above 0x10000. -/
def encodeRune (v : Nat) : Nat × Nat :=
  ((v - 0x10000) / 0x400 + 0xD800, (v - 0x10000) % 0x400 + 0xDC00)

/-- Go `utf16.Encode`: a code point in the basic multilingual plane (and not a
surrogate) becomes one 16-bit unit, a supplementary-plane code point becomes a
surrogate pair, and anything that is not a Unicode scalar value becomes the
replacement character U+FFFD. -/
def utf16Encode : List Nat → List Nat
  | [] => []
  | v :: rest =>
    (if v < 0xD800 ∨ (0xE000 ≤ v ∧ v < 0x10000) then [v]
     else if 0x10000 ≤ v ∧ v ≤ 0x10FFFF then [(encodeRune v).1, (encodeRune v).2]
     else [0xFFFD]) ++ utf16Encode rest

/-- Big-endian bytes of one 16-bit unit, as `binary.BigEndian.PutUint16`
stores them; the `% 256` on the high byte mirrors the `uint16` conversion. -/
def putUint16BE (u : Nat) : Bytes := [u / 256 % 256, u % 256]

/-- Go `EncodeUTF16` (fillpdf.go): the UTF-16 code units of the string written
big-endian, preceded by the byte-order marker FE FF when `addBom` is set. -/
def EncodeUTF16 (s : GoStr) (addBom : Bool) : Bytes :=
  let iresult := utf16Encode s
  let bytes : Bytes := if addBom then [254, 255] else []
  iresult.foldl (fun bytes i => bytes ++ putUint16BE i) bytes

/-- Body of the `for key, value := range form` loop of `createFdfFile` in
fillpdf.go: compute the textual value (checkbox labels for booleans, default
string form otherwise) and append one field record to the buffer. -/
def fdfLoopBody (checkedString uncheckedString : GoStr)
    (b : Bytes) (kv : GoStr × GoVal) : Bytes :=
  let valStr : GoStr :=
    match kv.2 with
    | .bool v => if v then checkedString else uncheckedString
    | v => sprintfV v
  let b := b ++ asc "<<\n"
  let b := b ++ asc "/T ("
  let b := b ++ EncodeUTF16 kv.1 true
  let b := b ++ asc ")\n"
  let b := b ++ asc "/V ("
  let b := b ++ EncodeUTF16 valStr true
  let b := b ++ asc ")\n"
  b ++ asc ">>\n"

/-- Byte content written by `createFdfFile` in fillpdf.go, transcribed call by
call from the sequence of writes: fixed header, one record per form entry in
iteration order, fixed footer. -/
def createFdfBytes (form : List (GoStr × GoVal))
    (checkedString uncheckedString : GoStr) : Bytes :=
  let b : Bytes := asc "%FDF-1.2\n"
  let b := b ++ [0xE2, 0xE3, 0xCF, 0xD3, 0x0A]
  let b := b ++ asc "1 0 obj \n"
  let b := b ++ asc "<<\n"
  let b := b ++ asc "/FDF \n"
  let b := b ++ asc "<<\n"
  let b := b ++ asc "/Fields [\n"
  let b := form.foldl (fdfLoopBody checkedString uncheckedString) b
  let b := b ++ asc "]\n"
  let b := b ++ asc ">>\n"
  let b := b ++ asc ">>\n"
  let b := b ++ asc "endobj \n"
  let b := b ++ asc "trailer\n"
  let b := b ++ asc "\n"
  let b := b ++ asc "<<\n"
  let b := b ++ asc "/Root 1 0 R\n"
  let b := b ++ asc ">>\n"
  b ++ asc "%%EOF\n"

/-- Unicode scalar values: the code points a Go string can decode to via
`[]rune(s)` (never a surrogate, never above U+10FFFF). -/
def ValidScalar (c : Nat) : Prop := c < 0x110000 ∧ (c < 0xD800 ∨ 0xDFFF < c)

instance (c : Nat) : Decidable (ValidScalar c) := by
  unfold ValidScalar; infer_instance

/-- Big-endian 16-bit units of a byte sequence (the encoder only produces
even-length sequences; a dangling trailing byte is dropped). -/
def bytesToUnitsBE : Bytes → List Nat
  | b1 :: b2 :: rest => (b1 * 256 + b2) :: bytesToUnitsBE rest
  | _ => []

/-- UTF-16 unit-sequence decoding, as in Go `utf16.Decode`: a basic-plane
unit decodes to itself, a high surrogate followed by a low surrogate combines
into one supplementary code point, and an unpaired surrogate becomes the
replacement character U+FFFD. -/
def utf16Decode : List Nat → List Nat
  | [] => []
  | [u] => if u < 0xD800 ∨ 0xE000 ≤ u then [u] else [0xFFFD]
  | u :: u2 :: rest =>
    if u < 0xD800 ∨ 0xE000 ≤ u then u :: utf16Decode (u2 :: rest)
    else if u < 0xDC00 ∧ 0xDC00 ≤ u2 ∧ u2 < 0xE000 then
      (0x10000 + (u - 0xD800) * 0x400 + (u2 - 0xDC00)) :: utf16Decode rest
    else 0xFFFD :: utf16Decode (u2 :: rest)

/-- Modelled from the spec: the repository itself contains no decoder, so the
"decoding ... with the same byte order" of the round-trip property is
modelled here: split the bytes into big-endian 16-bit units, drop the leading
byte-order marker, and combine surrogate pairs. -/
def decodeUTF16BE (b : Bytes) : GoStr :=
  match bytesToUnitsBE b with
  | 0xFEFF :: units => utf16Decode units
  | units => utf16Decode units

/-- Concatenation of the images of a list, used to state what a loop of
writer appends emits. -/
def concatMap (f : α → List β) : List α → List β
  | [] => []
  | x :: xs => f x ++ concatMap f xs

/-- Fixed FDF header, as the specification describes it. -/
def fdfHeader : Bytes :=
  asc "%FDF-1.2\n" ++ [0xE2, 0xE3, 0xCF, 0xD3, 0x0A] ++ asc "1 0 obj \n" ++
  asc "<<\n" ++ asc "/FDF \n" ++ asc "<<\n" ++ asc "/Fields [\n"

/-- Fixed FDF footer, as the specification describes it. -/
def fdfFooter : Bytes :=
  asc "]\n" ++ asc ">>\n" ++ asc ">>\n" ++ asc "endobj \n" ++ asc "trailer\n" ++
  asc "\n" ++ asc "<<\n" ++ asc "/Root 1 0 R\n" ++ asc ">>\n" ++ asc "%%EOF\n"

/-- Rendered text of one field value: the checked/unchecked label for a
boolean, the default string form otherwise. -/
def renderValue (v : GoVal) (checkedString uncheckedString : GoStr) : GoStr :=
  match v with
  | .bool b => if b then checkedString else uncheckedString
  | w => sprintfV w

/-- Shape of one emitted field record: name and rendered value, each
independently 16-bit encoded with a leading byte-order marker, between
literal parenthesis bytes. -/
def fdfRecord (k : GoStr) (v : GoVal) (c u : GoStr) : Bytes :=
  asc "<<\n" ++ asc "/T (" ++ EncodeUTF16 k true ++ asc ")\n" ++
  asc "/V (" ++ EncodeUTF16 (renderValue v c u) true ++ asc ")\n" ++ asc ">>\n"

/-! Operating-system model: filesystem contents, failure oracles for each
system call the library makes, and an event trace recording subprocess
invocations and scratch-directory cleanup. -/

/-- Filesystem paths. -/
abbrev Path := String

/-- Filesystem contents: each path maps to the bytes of the file there, or
none when no file exists at that path. -/
def Fs := Path → Option Bytes

/-- Effect of creating or fully rewriting one file. -/
def Fs.insert (fs : Fs) (p : Path) (b : Bytes) : Fs :=
  fun q => if q = p then some b else fs q

/-- Effect of `os.Remove` on one file. -/
def Fs.erase (fs : Fs) (p : Path) : Fs :=
  fun q => if q = p then none else fs q

/-- Boolean prefix test on paths. -/
def strHasPref (pre s : Path) : Bool := pre.data.isPrefixOf s.data

/-- Effect of `os.RemoveAll` on a directory: everything under it is gone. -/
def Fs.eraseUnder (fs : Fs) (dir : Path) : Fs :=
  fun q => if strHasPref dir q then none else fs q

/-- Error kinds of the library, one per `return err` site. -/
inductive Err where
  | toolNotFound
  | statFailed (path : Path)
  | fileNotExists (path : Path)
  | tempDirFailed
  | createFailed (path : Path)
  | toolFailed (msg : String)
  | destExists (path : Path)
  | removeFailed (path : Path)
  | openFailed (path : Path)
  | copyFailed
  | syncFailed
  | readFailed (path : Path)
  | randFailed
deriving DecidableEq

/-- Observable events of one operation: a pdftk subprocess invocation (with
working directory, command name and arguments), a call of `os.RemoveAll` on
the scratch directory, and a log line written for a failed cleanup. -/
inductive Event where
  | toolInvoked (dir name : Path) (args : List Path)
  | removedAll (dir : Path)
  | logged
deriving DecidableEq

/-- Oracle for everything outside the library: which system calls succeed,
what the filesystem initially holds, and what the external pdftk tool does.
`toolRes args = some out` means pdftk exits zero producing `out`;
`none` means a non-zero exit. -/
structure Env where
  toolOk : Bool
  absFn : Path → Path
  fs0 : Path → Option Bytes
  statErr : Path → Bool
  tempDirRes : Option Path
  createOk : Path → Bool
  removeOk : Path → Bool
  removeAllOk : Bool
  copyOk : Bool
  syncOk : Bool
  randOk : Bool
  idHex : String
  unixTime : String
  toolRes : List Path → Option Bytes
  toolErrMsg : String

/-- Go `exists` helper: `os.Stat` succeeding means present, `IsNotExist`
means absent, and any other stat failure is returned as an error. -/
def exists_ (env : Env) (fs : Fs) (path : Path) : Except Err Bool :=
  match fs path with
  | some _ => .ok true
  | none => if env.statErr path then .error (.statFailed path) else .ok false

/-- Go `getAbs`: resolve the path to an absolute one, then require the file
to exist (`filepath.Abs` itself only fails when the working directory is
unreadable, which is not modelled). -/
def getAbs (env : Env) (fs : Fs) (path : Path) : Except Err Path :=
  let absPath := env.absFn path
  match exists_ env fs path with
  | .error e => .error e
  | .ok true => .ok absPath
  | .ok false => .error (.fileNotExists path)

/-- Target file of the `output <path>` pair of a pdftk argument list, if any;
`-` streams to standard output instead. -/
def outputTarget : List Path → Option Path
  | [] => none
  | [_] => none
  | a :: b :: rest => if a = "output" then some b else outputTarget (b :: rest)

/-- Effect of a successful pdftk run on the filesystem: the produced bytes
land in the `output` file (or go to standard output for `-`). -/
def applyToolOutput (fs : Fs) (args : List Path) (out : Bytes) : Fs :=
  match outputTarget args with
  | some p => if p = "-" then fs else fs.insert p out
  | none => fs

/-- Go `runCommandInPath`: run the tool synchronously with the given working
directory; on non-zero exit the trimmed stderr text becomes the error. -/
def runCommandInPath (env : Env) (fs : Fs) (dir name : Path) (args : List Path) :
    Except Err Unit × Fs × List Event :=
  match env.toolRes args with
  | none => (.error (.toolFailed env.toolErrMsg), fs, [.toolInvoked dir name args])
  | some out => (.ok (), applyToolOutput fs args out, [.toolInvoked dir name args])

/-- Go `runCommandWithOutput`: as `runCommandInPath` but returning the bytes
the tool wrote to standard output. -/
def runCommandWithOutput (env : Env) (fs : Fs) (dir name : Path) (args : List Path) :
    Except Err Bytes × Fs × List Event :=
  match env.toolRes args with
  | none => (.error (.toolFailed env.toolErrMsg), fs, [.toolInvoked dir name args])
  | some out => (.ok out, applyToolOutput fs args out, [.toolInvoked dir name args])

/-- Go `copyFile` from the utility file: open the source, create (truncate)
the destination, copy, then sync.  A copy failure after the create leaves the
destination truncated, modelled as the empty file; the deferred close of the
destination is not given a failure oracle. -/
def copyFile (env : Env) (fs : Fs) (src dst : Path) : Except Err Unit × Fs :=
  match fs src with
  | none => (.error (.openFailed src), fs)
  | some content =>
    if env.createOk dst then
      if env.copyOk then
        if env.syncOk then (.ok (), fs.insert dst content)
        else (.error .syncFailed, fs.insert dst content)
      else (.error .copyFailed, fs.insert dst [])
    else (.error (.createFailed dst), fs)

/-- Go `GetID`: eight random bytes rendered as `<prefix>_<hex>`. -/
def GetID (env : Env) (pre : String) : Except Err String :=
  if env.randOk then .ok (pre ++ "_" ++ env.idHex) else .error .randFailed

/-- Go `createFdfFile` (fillpdf.go): create the file at `path` and write the
encoded form data through a buffered writer, flushed before returning. -/
def createFdfFile (env : Env) (fs : Fs) (form : List (GoStr × GoVal))
    (path : Path) (checkedString uncheckedString : GoStr) : Except Err Unit × Fs :=
  if env.createOk path then
    (.ok (), fs.insert path (createFdfBytes form checkedString uncheckedString))
  else (.error (.createFailed path), fs)

/-- Deferred `os.RemoveAll(tmpDir)` as Fill, Merge and the part_002
Multistamp run it: invoked on every exit path once registered, its returned
error ignored. -/
def deferRemoveAll (env : Env) (tmpDir : Path) :
    α × Fs × List Event → α × Fs × List Event
  | (r, fs, tr) =>
    (r, if env.removeAllOk then fs.eraseUnder tmpDir else fs, tr ++ [.removedAll tmpDir])

/-- Deferred cleanup as the part_001 Multistamp runs it: a RemoveAll failure
is logged and otherwise ignored. -/
def deferRemoveAllLogged (env : Env) (tmpDir : Path) :
    α × Fs × List Event → α × Fs × List Event
  | (r, fs, tr) =>
    (r, if env.removeAllOk then fs.eraseUnder tmpDir else fs,
     tr ++ if env.removeAllOk then [.removedAll tmpDir] else [.removedAll tmpDir, .logged])

/-- Go `Fill` (fillpdf.go): check the tool, resolve and check the input,
resolve the destination, create the scratch directory (removed on defer),
write the FDF data file, run pdftk into a scratch output file, enforce the
overwrite flag against an existing destination, and copy the output into
place.  `filepath.Clean` on the concatenated scratch paths is the identity
here since the modelled scratch directory name is already clean. -/
def Fill (env : Env) (form : List (GoStr × GoVal))
    (formPDFFile destPDFFile : Path) (checkedString uncheckedString : GoStr)
    (overwrite : Bool) : Except Err Unit × Fs × List Event :=
  let fs : Fs := env.fs0
  if env.toolOk = false then (.error .toolNotFound, fs, [])
  else
    match getAbs env fs formPDFFile with
    | .error e => (.error e, fs, [])
    | .ok formAbs =>
      let destAbs := env.absFn destPDFFile
      match env.tempDirRes with
      | none => (.error .tempDirFailed, fs, [])
      | some tmpDir =>
        let outputFile := tmpDir ++ "/output.pdf"
        let fdfFile := tmpDir ++ "/data.fdf"
        deferRemoveAll env tmpDir <|
          match createFdfFile env fs form fdfFile checkedString uncheckedString with
          | (.error e, fs) => (.error e, fs, [])
          | (.ok _, fs) =>
            let args := [formAbs, "fill_form", fdfFile, "output", outputFile, "flatten"]
            match runCommandInPath env fs tmpDir "pdftk" args with
            | (.error e, fs, tr) => (.error e, fs, tr)
            | (.ok _, fs, tr) =>
              match exists_ env fs destAbs with
              | .error e => (.error e, fs, tr)
              | .ok e =>
                if e = true ∧ overwrite = false then
                  (.error (.destExists destAbs), fs, tr)
                else if e = true ∧ env.removeOk destAbs = false then
                  (.error (.removeFailed destAbs), fs, tr)
                else
                  let fs := if e = true then fs.erase destAbs else fs
                  match copyFile env fs outputFile destAbs with
                  | (.error e2, fs) => (.error e2, fs, tr)
                  | (.ok _, fs) => (.ok (), fs, tr)

/-- Go `FillPDFToBytes` (fillpdf.go): write the FDF data file into the
caller-supplied scratch directory under a random name (removed on defer,
ignoring the removal error) and run pdftk with output streamed to standard
output.  The source path is used exactly as given: it is neither resolved
nor checked for existence. -/
def FillPDFToBytes (env : Env) (form : List (GoStr × GoVal))
    (formAbsolutePath tmpDir : Path) (checkedString uncheckedString : GoStr) :
    Except Err Bytes × Fs × List Event :=
  let fs : Fs := env.fs0
  match GetID env "pdf_" with
  | .error e => (.error e, fs, [])
  | .ok id =>
    let fdfFile := tmpDir ++ "/" ++ id ++ ".fdf"
    let fin : Except Err Bytes × Fs × List Event → Except Err Bytes × Fs × List Event :=
      fun r => (r.1, if env.removeOk fdfFile then Fs.erase r.2.1 fdfFile else r.2.1, r.2.2)
    fin <|
      match createFdfFile env fs form fdfFile checkedString uncheckedString with
      | (.error e, fs) => (.error e, fs, [])
      | (.ok _, fs) =>
        let args := [formAbsolutePath, "fill_form", fdfFile, "output", "-", "flatten"]
        runCommandWithOutput env fs tmpDir "pdftk" args

/-- Loop of Go `Merge` collecting absolute input paths while verifying each
input exists; the first failure aborts the whole operation. -/
def mergeAbsArgs (env : Env) (fs : Fs) : List Path → Except Err (List Path)
  | [] => .ok []
  | f :: rest =>
    match getAbs env fs f with
    | .error e => .error e
    | .ok a =>
      match mergeAbsArgs env fs rest with
      | .error e => .error e
      | .ok l => .ok (a :: l)

/-- Go `Merge` (merge.go): resolve and check every input, create the scratch
directory (removed on defer), run `pdftk <inputs> cat output <file>` and read
the produced file back.  The time-stamped output file name is modelled from
the oracle's clock. -/
def Merge (env : Env) (files : List Path) : Except Err Bytes × Fs × List Event :=
  let fs : Fs := env.fs0
  match mergeAbsArgs env fs files with
  | .error e => (.error e, fs, [])
  | .ok absFiles =>
    match env.tempDirRes with
    | none => (.error .tempDirFailed, fs, [])
    | some tmpDir =>
      let outputFile := tmpDir ++ "/" ++ env.unixTime ++ ".pdf"
      deferRemoveAll env tmpDir <|
        let args := absFiles ++ ["cat", "output", outputFile]
        match runCommandInPath env fs tmpDir "pdftk" args with
        | (.error e, fs, tr) => (.error e, fs, tr)
        | (.ok _, fs, tr) =>
          match fs outputFile with
          | none => (.error (.readFailed outputFile), fs, tr)
          | some out => (.ok out, fs, tr)

/-- Go `Multistamp`, part_002 revision: check the tool, resolve and check
both inputs (propagating failures), run `pdftk <onto> multistamp <stamp>
output <file>` in a scratch directory removed on defer, and read the output
back. -/
def Multistamp_v2 (env : Env) (stampontoPDFFile stampPDFFile : Path) :
    Except Err Bytes × Fs × List Event :=
  let fs : Fs := env.fs0
  if env.toolOk = false then (.error .toolNotFound, fs, [])
  else
    match getAbs env fs stampontoPDFFile with
    | .error e => (.error e, fs, [])
    | .ok onto =>
      match getAbs env fs stampPDFFile with
      | .error e => (.error e, fs, [])
      | .ok stamp =>
        match env.tempDirRes with
        | none => (.error .tempDirFailed, fs, [])
        | some tmpDir =>
          let outputFile := tmpDir ++ "/output.pdf"
          deferRemoveAll env tmpDir <|
            let args := [onto, "multistamp", stamp, "output", outputFile]
            match runCommandInPath env fs tmpDir "pdftk" args with
            | (.error e, fs, tr) => (.error e, fs, tr)
            | (.ok _, fs, tr) =>
              match fs outputFile with
              | none => (.error (.readFailed outputFile), fs, tr)
              | some out => (.ok out, fs, tr)

/-- Go `Multistamp`, part_001 revision: the result is the `(io.Reader,
error)` pair.  A failure of `getAbs` on either input returns `nil, nil` — no
reader and no error; later failures are propagated, and a cleanup failure of
the scratch directory is logged only. -/
def Multistamp_v1 (env : Env) (stampontoPDFFile stampPDFFile : Path) :
    (Option Bytes × Option Err) × Fs × List Event :=
  let fs : Fs := env.fs0
  match getAbs env fs stampontoPDFFile with
  | .error _ => ((none, none), fs, [])
  | .ok onto =>
    match getAbs env fs stampPDFFile with
    | .error _ => ((none, none), fs, [])
    | .ok stamp =>
      if env.toolOk = false then ((none, some .toolNotFound), fs, [])
      else
        match env.tempDirRes with
        | none => ((none, some .tempDirFailed), fs, [])
        | some tmpDir =>
          let outputFile := tmpDir ++ "/output.pdf"
          deferRemoveAllLogged env tmpDir <|
            let args := [onto, "multistamp", stamp, "output", outputFile]
            match runCommandInPath env fs tmpDir "pdftk" args with
            | (.error e, fs, tr) => ((none, some e), fs, tr)
            | (.ok _, fs, tr) =>
              match fs outputFile with
              | none => ((none, some (.readFailed outputFile)), fs, tr)
              | some out => ((some out, none), fs, tr)

/-- Modelled after the iconv conversion the part_000 revision shells its
strings through (an external library): UTF-16 with a byte-order marker.  No
claim depends on these exact bytes. -/
def toUTF16 (s : GoStr) : Bytes := [254, 255] ++ concatMap putUint16BE (utf16Encode s)

/-- Loop body of `createFdfFile` in the part_000 revision: fixed `Yes`/`Off`
checkbox tokens and iconv-converted strings. -/
def fdfLoopBody0 (b : Bytes) (kv : GoStr × GoVal) : Bytes :=
  let valStr : GoStr :=
    match kv.2 with
    | .bool v => if v then asc "Yes" else asc "Off"
    | v => sprintfV v
  let b := b ++ asc "<<\n"
  let b := b ++ (asc "/T (" ++ toUTF16 kv.1 ++ asc ")\n")
  let b := b ++ (asc "/V (" ++ toUTF16 valStr ++ asc ")\n")
  b ++ asc ">>\n"

/-- Byte content written by `createFdfFile` in the part_000 revision. -/
def createFdfBytes0 (form : List (GoStr × GoVal)) : Bytes :=
  let b : Bytes := asc "%FDF-1.2\n"
  let b := b ++ [0xE2, 0xE3, 0xCF, 0xD3, 0x0A]
  let b := b ++ asc "1 0 obj \n"
  let b := b ++ asc "<<\n"
  let b := b ++ asc "/FDF \n"
  let b := b ++ asc "<<\n"
  let b := b ++ asc "/Fields [\n"
  let b := form.foldl fdfLoopBody0 b
  let b := b ++ asc "]\n"
  let b := b ++ asc ">>\n"
  let b := b ++ asc ">>\n"
  let b := b ++ asc "endobj \n"
  let b := b ++ asc "trailer\n"
  let b := b ++ asc "\n"
  let b := b ++ asc "<<\n"
  let b := b ++ asc "/Root 1 0 R\n"
  let b := b ++ asc ">>\n"
  b ++ asc "%%EOF\n"

/-- Go `createFdfFile` of the part_000 revision. -/
def createFdfFile0 (env : Env) (fs : Fs) (form : List (GoStr × GoVal))
    (path : Path) : Except Err Unit × Fs :=
  if env.createOk path then (.ok (), fs.insert path (createFdfBytes0 form))
  else (.error (.createFailed path), fs)

/-- Go `Fill` of the part_000 revision: the same flow as the current `Fill`,
except that the checkbox tokens are fixed and — decisively — the deferred
removal of the scratch directory is commented out, so no cleanup ever runs. -/
def Fill0 (env : Env) (form : List (GoStr × GoVal))
    (formPDFFile destPDFFile : Path) (overwrite : Bool) :
    Except Err Unit × Fs × List Event :=
  let fs : Fs := env.fs0
  if env.toolOk = false then (.error .toolNotFound, fs, [])
  else
    match getAbs env fs formPDFFile with
    | .error e => (.error e, fs, [])
    | .ok formAbs =>
      let destAbs := env.absFn destPDFFile
      match env.tempDirRes with
      | none => (.error .tempDirFailed, fs, [])
      | some tmpDir =>
        let outputFile := tmpDir ++ "/output.pdf"
        let fdfFile := tmpDir ++ "/data.fdf"
        match createFdfFile0 env fs form fdfFile with
        | (.error e, fs) => (.error e, fs, [])
        | (.ok _, fs) =>
          let args := [formAbs, "fill_form", fdfFile, "output", outputFile, "flatten"]
          match runCommandInPath env fs tmpDir "pdftk" args with
          | (.error e, fs, tr) => (.error e, fs, tr)
          | (.ok _, fs, tr) =>
            match exists_ env fs destAbs with
            | .error e => (.error e, fs, tr)
            | .ok e =>
              if e = true ∧ overwrite = false then
                (.error (.destExists destAbs), fs, tr)
              else if e = true ∧ env.removeOk destAbs = false then
                (.error (.removeFailed destAbs), fs, tr)
              else
                let fs := if e = true then fs.erase destAbs else fs
                match copyFile env fs outputFile destAbs with
                | (.error e2, fs) => (.error e2, fs, tr)
                | (.ok _, fs) => (.ok (), fs, tr)

/-- Concrete oracle for witnesses and counterexamples: everything succeeds,
`form.pdf`, `stamp.pdf` and the pre-existing `/abs/dest.pdf` are the only
files, path resolution prepends `/abs/`, the scratch directory is
`/tmp/fillpdf-1`, and pdftk produces the bytes `[80, 68, 70]`. -/
def envC : Env where
  toolOk := true
  absFn := fun p => "/abs/" ++ p
  fs0 := fun p =>
    if p = "form.pdf" then some [1]
    else if p = "stamp.pdf" then some [2]
    else if p = "/abs/dest.pdf" then some [9, 9]
    else none
  statErr := fun _ => false
  tempDirRes := some "/tmp/fillpdf-1"
  createOk := fun _ => true
  removeOk := fun _ => true
  removeAllOk := true
  copyOk := true
  syncOk := true
  randOk := true
  idHex := "ab"
  unixTime := "7"
  toolRes := fun _ => some [80, 68, 70]
  toolErrMsg := "boom"

/-- Oracle with the external tool missing from the search path. -/
def envNoTool : Env := { envC with toolOk := false }

/-- Oracle where the byte copy inside `copyFile` fails (for instance a full
disk) right after the destination has been created and truncated. -/
def envCopyFail : Env := { envC with copyOk := false }

/-- Folding a writer loop that appends `f x` per element emits the
concatenation of the per-element output after the initial buffer. -/
theorem foldl_emit (f : α → List β) (g : List β → α → List β)
    (hg : ∀ b x, g b x = b ++ f x) :
    ∀ (l : List α) (b : List β), l.foldl g b = b ++ concatMap f l
  | [], b => by simp [concatMap]
  | x :: xs, b => by
    rw [List.foldl_cons, hg, foldl_emit f g hg xs, concatMap, List.append_assoc]

/-- Loop body of `createFdfFile` rewritten as an append of one record. -/
theorem fdfLoopBody_eq (c u : GoStr) (b : Bytes) (kv : GoStr × GoVal) :
    fdfLoopBody c u b kv = b ++ fdfRecord kv.1 kv.2 c u := by
  rcases kv with ⟨k, v⟩
  cases v <;> simp [fdfLoopBody, fdfRecord, renderValue, List.append_assoc]

/-- Structure lemma for the encoder output: header, then the concatenated
records, then footer. -/
theorem createFdfBytes_eq (form : List (GoStr × GoVal)) (c u : GoStr) :
    createFdfBytes form c u =
      fdfHeader ++ concatMap (fun kv : GoStr × GoVal => fdfRecord kv.1 kv.2 c u) form ++ fdfFooter := by
  have h := foldl_emit (fun kv : GoStr × GoVal => fdfRecord kv.1 kv.2 c u)
    (fdfLoopBody c u) (fdfLoopBody_eq c u) form
  simp only [createFdfBytes]
  rw [h]
  simp [fdfHeader, fdfFooter, List.append_assoc]

/-- Encoded output with the marker: marker bytes first, then the big-endian
bytes of every unit. -/
theorem encodeUTF16_bom (s : GoStr) :
    EncodeUTF16 s true = [254, 255] ++ concatMap putUint16BE (utf16Encode s) := by
  unfold EncodeUTF16
  rw [foldl_emit putUint16BE _ (fun b x => rfl) (utf16Encode s)]
  simp

/-- First component of an encoded surrogate pair. -/
theorem encodeRune_fst (v : Nat) : (encodeRune v).1 = (v - 0x10000) / 0x400 + 0xD800 := rfl

/-- Second component of an encoded surrogate pair. -/
theorem encodeRune_snd (v : Nat) : (encodeRune v).2 = (v - 0x10000) % 0x400 + 0xDC00 := rfl

/-- Every unit the encoder produces fits in 16 bits. -/
theorem utf16Encode_lt : ∀ (s : List Nat), ∀ u ∈ utf16Encode s, u < 65536
  | [] => by simp [utf16Encode]
  | v :: rest => by
    intro u hu
    simp only [utf16Encode, List.mem_append] at hu
    rcases hu with hu | hu
    · split at hu
      · simp only [List.mem_singleton] at hu
        omega
      · split at hu
        · simp only [encodeRune_fst, encodeRune_snd, List.mem_cons, List.mem_singleton,
            List.not_mem_nil, or_false] at hu
          rcases hu with h | h <;> omega
        · simp only [List.mem_singleton] at hu
          omega
    · exact utf16Encode_lt rest u hu

/-- Parsing the big-endian bytes of 16-bit units recovers the units. -/
theorem bytesToUnits_concatMap : ∀ (units : List Nat), (∀ u ∈ units, u < 65536) →
    bytesToUnitsBE (concatMap putUint16BE units) = units
  | [], _ => rfl
  | u :: rest, h => by
    have hu : u < 65536 := h u (by simp)
    have hr := bytesToUnits_concatMap rest (fun x hx => h x (by simp [hx]))
    show bytesToUnitsBE (u / 256 % 256 :: u % 256 :: concatMap putUint16BE rest) = u :: rest
    rw [bytesToUnitsBE, hr]
    congr 1
    omega

/-- Decoding steps over a basic-plane unit. -/
theorem utf16Decode_cons_bmp (c : Nat) (h : c < 0xD800 ∨ 0xE000 ≤ c) (ts : List Nat) :
    utf16Decode (c :: ts) = c :: utf16Decode ts := by
  cases ts with
  | nil => simp only [utf16Decode]; rw [if_pos h]
  | cons t ts => simp only [utf16Decode]; rw [if_pos h]

/-- Decoding recombines an encoded surrogate pair. -/
theorem utf16Decode_cons_pair (c : Nat) (h1 : 0x10000 ≤ c) (h2 : c < 0x110000)
    (ts : List Nat) :
    utf16Decode ((encodeRune c).1 :: (encodeRune c).2 :: ts) = c :: utf16Decode ts := by
  have ha : ¬((encodeRune c).1 < 0xD800 ∨ 0xE000 ≤ (encodeRune c).1) := by
    rw [encodeRune_fst]; omega
  have hb : (encodeRune c).1 < 0xDC00 ∧ 0xDC00 ≤ (encodeRune c).2 ∧ (encodeRune c).2 < 0xE000 := by
    rw [encodeRune_fst, encodeRune_snd]; omega
  have hc : 0x10000 + ((encodeRune c).1 - 0xD800) * 0x400 + ((encodeRune c).2 - 0xDC00) = c := by
    rw [encodeRune_fst, encodeRune_snd]; omega
  simp only [utf16Decode]
  rw [if_neg ha, if_pos hb, hc]

/-- Unit-level round trip: decoding the encoded units of a list of Unicode
scalar values gives the list back. -/
theorem utf16_decode_encode : ∀ (s : List Nat), (∀ c ∈ s, ValidScalar c) →
    utf16Decode (utf16Encode s) = s
  | [], _ => rfl
  | c :: rest, h => by
    have hc : ValidScalar c := h c (by simp)
    unfold ValidScalar at hc
    have hr := utf16_decode_encode rest (fun x hx => h x (by simp [hx]))
    by_cases hbmp : c < 0x10000
    · have hcond : c < 0xD800 ∨ (0xE000 ≤ c ∧ c < 0x10000) := by omega
      simp only [utf16Encode]
      rw [if_pos hcond, List.singleton_append, utf16Decode_cons_bmp c (by omega), hr]
    · have hcond1 : ¬(c < 0xD800 ∨ (0xE000 ≤ c ∧ c < 0x10000)) := by omega
      have hcond2 : 0x10000 ≤ c ∧ c ≤ 0x10FFFF := by omega
      simp only [utf16Encode]
      rw [if_neg hcond1, if_pos hcond2, List.cons_append, List.cons_append,
        List.nil_append, utf16Decode_cons_pair c hcond2.1 (by omega), hr]

/-- Byte-level round trip after the marker is stripped. -/
theorem decode_encode_bytes (s : GoStr) (h : ∀ c ∈ s, ValidScalar c) :
    decodeUTF16BE (EncodeUTF16 s true) = s := by
  rw [encodeUTF16_bom]
  unfold decodeUTF16BE
  have hb : bytesToUnitsBE ([254, 255] ++ concatMap putUint16BE (utf16Encode s)) =
      65279 :: bytesToUnitsBE (concatMap putUint16BE (utf16Encode s)) := by
    simp [bytesToUnitsBE]
  rw [hb, bytesToUnits_concatMap _ (utf16Encode_lt s)]
  exact utf16_decode_encode s h

/-- Character lists are prefixes of their own extensions. -/
theorem isPrefixOf_append_self : ∀ (l t : List Char), l.isPrefixOf (l ++ t) = true
  | [], _ => by simp [List.isPrefixOf]
  | a :: l, t => by simp [List.isPrefixOf, isPrefixOf_append_self l t]

/-- Appending to a path keeps it under that path. -/
theorem strHasPref_append (tmp s : Path) : strHasPref tmp (tmp ++ s) = true := by
  rw [strHasPref, String.data_append]
  exact isPrefixOf_append_self tmp.data s.data

/-- A path not under the scratch directory differs from every path in it. -/
theorem ne_of_not_pref (tmp : Path) (d : Path) (s : Path)
    (h : strHasPref tmp d = false) : d ≠ tmp ++ s := by
  intro he
  rw [he, strHasPref_append] at h
  cases h

/-- Appending a longer suffix can never produce a shorter literal. -/
theorem append_ne_of_length (tmp s t : Path) (h : t.length < s.length) : tmp ++ s ≠ t := by
  intro he
  have hl := congrArg String.length he
  rw [String.length_append] at hl
  omega

/-- Scan of the fill-operation argument list for its `output` target. -/
theorem outputTarget_fill (a f o x : Path) (ha : a ≠ "output") (hf : f ≠ "output") :
    outputTarget [a, "fill_form", f, "output", o, x] = some o := by
  simp [outputTarget, ha, hf]

/-- First missing input makes the Merge path-collection loop fail with the
file-not-exists error for a missing file. -/
theorem mergeAbsArgs_missing (env : Env) (fs : Fs) :
    ∀ files : List Path, (∀ f, env.statErr f = false) → (∃ f ∈ files, fs f = none) →
    ∃ f, fs f = none ∧ mergeAbsArgs env fs files = .error (.fileNotExists f)
  | [], _, h => by simp at h
  | f0 :: rest, hs, h => by
    cases hf : fs f0 with
    | none =>
      refine ⟨f0, hf, ?_⟩
      simp [mergeAbsArgs, getAbs, exists_, hf, hs f0]
    | some x =>
      obtain ⟨f, hmem, hnone⟩ := h
      have hrest : ∃ f ∈ rest, fs f = none := by
        rcases List.mem_cons.mp hmem with rfl | hm
        · rw [hf] at hnone; cases hnone
        · exact ⟨f, hm, hnone⟩
      obtain ⟨f, hfn, heq⟩ := mergeAbsArgs_missing env fs rest hs hrest
      refine ⟨f, hfn, ?_⟩
      simp [mergeAbsArgs, getAbs, exists_, hf, heq]

/-- C1: for every form and every checked/unchecked label pair, the byte
sequence `createFdfFile` writes is the fixed FDF header, then exactly one
field record per form entry — each of shape `<<\n/T (name)\n/V (value)\n>>\n`
with name and rendered value independently 16-bit encoded with a leading
byte-order marker — then the fixed footer; the empty form yields exactly
header followed by footer with zero records. -/
theorem createFdf_structure (form : List (GoStr × GoVal)) (c u : GoStr) :
    createFdfBytes form c u =
      fdfHeader ++ concatMap (fun kv : GoStr × GoVal => fdfRecord kv.1 kv.2 c u) form ++
        fdfFooter ∧
    (∀ k v, fdfRecord k v c u =
      asc "<<\n" ++ asc "/T (" ++
        ([254, 255] ++ concatMap putUint16BE (utf16Encode k)) ++ asc ")\n" ++
      asc "/V (" ++
        ([254, 255] ++ concatMap putUint16BE (utf16Encode (renderValue v c u))) ++ asc ")\n" ++
      asc ">>\n") ∧
    createFdfBytes [] c u = fdfHeader ++ fdfFooter := by
  refine ⟨createFdfBytes_eq form c u, ?_, ?_⟩
  · intro k v
    rw [fdfRecord, encodeUTF16_bom, encodeUTF16_bom]
  · rw [createFdfBytes_eq]
    simp [concatMap]

/-- C2: for every Unicode string (any list of Unicode scalar values,
including supplementary-plane code points needing surrogate pairs),
`EncodeUTF16 s true` is the marker FE FF followed by the big-endian bytes of
the UTF-16 code units of the string, and decoding those bytes back with the
same big-endian byte order yields the string again. -/
theorem encodeUTF16_marker_and_roundtrip (s : GoStr) (h : ∀ c ∈ s, ValidScalar c) :
    EncodeUTF16 s true = [254, 255] ++ concatMap putUint16BE (utf16Encode s) ∧
    decodeUTF16BE (EncodeUTF16 s true) = s :=
  ⟨encodeUTF16_bom s, decode_encode_bytes s h⟩

/-- Witness for C2 at the concrete string "H😀", whose second code point
U+1F600 lies outside the basic multilingual plane. -/
theorem encodeUTF16_marker_and_roundtrip_witness :
    (∀ c ∈ ([72, 128512] : GoStr), ValidScalar c) ∧
    EncodeUTF16 [72, 128512] true = [254, 255, 0, 72, 216, 61, 222, 0] ∧
    decodeUTF16BE (EncodeUTF16 [72, 128512] true) = [72, 128512] :=
  ⟨by decide, by decide,
    (encodeUTF16_marker_and_roundtrip [72, 128512] (by decide)).2⟩

/-- C3: in the emitted record of a form entry, the boolean true renders as
the caller-supplied checked label, false as the unchecked label, and a
non-boolean value (text here, an integer below) as its default string form. -/
theorem createFdf_value_rendering (k c u s : GoStr) (n : Int) :
    createFdfBytes [(k, .bool true)] c u =
      fdfHeader ++ (asc "<<\n" ++ asc "/T (" ++ EncodeUTF16 k true ++ asc ")\n" ++
        asc "/V (" ++ EncodeUTF16 c true ++ asc ")\n" ++ asc ">>\n") ++ fdfFooter ∧
    createFdfBytes [(k, .bool false)] c u =
      fdfHeader ++ (asc "<<\n" ++ asc "/T (" ++ EncodeUTF16 k true ++ asc ")\n" ++
        asc "/V (" ++ EncodeUTF16 u true ++ asc ")\n" ++ asc ">>\n") ++ fdfFooter ∧
    createFdfBytes [(k, .str s)] c u =
      fdfHeader ++ (asc "<<\n" ++ asc "/T (" ++ EncodeUTF16 k true ++ asc ")\n" ++
        asc "/V (" ++ EncodeUTF16 s true ++ asc ")\n" ++ asc ">>\n") ++ fdfFooter ∧
    createFdfBytes [(k, .int n)] c u =
      fdfHeader ++ (asc "<<\n" ++ asc "/T (" ++ EncodeUTF16 k true ++ asc ")\n" ++
        asc "/V (" ++ EncodeUTF16 (sprintfV (.int n)) true ++ asc ")\n" ++ asc ">>\n") ++
        fdfFooter := by
  refine ⟨?_, ?_, ?_, ?_⟩ <;>
    · rw [createFdfBytes_eq]
      simp [concatMap, fdfRecord, renderValue, sprintfV, List.append_assoc]

/-- C10 (implicit): the encoder escapes nothing — in every record the
16-bit-encoded name and value bytes sit verbatim between the literal
parenthesis bytes — and for the one-character value ")" the encoded value
placed between the opening byte 40 and the closing byte 41 itself contains
the unescaped byte 41. -/
theorem fdf_no_escaping :
    (∀ (form : List (GoStr × GoVal)) (c u : GoStr),
      createFdfBytes form c u =
        fdfHeader ++ concatMap (fun kv : GoStr × GoVal => fdfRecord kv.1 kv.2 c u) form ++
          fdfFooter) ∧
    EncodeUTF16 [41] true = [254, 255, 0, 41] ∧
    createFdfBytes [([97], .str [41])] [] [] =
      fdfHeader ++ (asc "<<\n" ++ asc "/T (" ++ [254, 255, 0, 97] ++ asc ")\n" ++
        asc "/V (" ++ [254, 255, 0, 41] ++ asc ")\n" ++ asc ">>\n") ++ fdfFooter ∧
    41 ∈ ([254, 255, 0, 41] : Bytes) := by
  refine ⟨fun form c u => createFdfBytes_eq form c u, by decide, ?_, by decide⟩
  rw [createFdfBytes_eq]
  have h1 : EncodeUTF16 [97] true = [254, 255, 0, 97] := by decide
  have h2 : EncodeUTF16 (renderValue (.str [41]) [] []) true = [254, 255, 0, 41] := by decide
  simp [concatMap, fdfRecord, h1, h2, List.append_assoc]

/-- C6: Fill fails with the tool-not-found error when pdftk is absent from
the search path and with the input-not-found error when the source document
does not exist; in both cases the event trace is empty, so no subprocess was
spawned. -/
theorem Fill_precondition_checks (env : Env) (form : List (GoStr × GoVal))
    (src dst : Path) (c u : GoStr) (ov : Bool) :
    (env.toolOk = false →
      Fill env form src dst c u ov = (.error .toolNotFound, env.fs0, [])) ∧
    (env.toolOk = true → env.fs0 src = none → env.statErr src = false →
      Fill env form src dst c u ov = (.error (.fileNotExists src), env.fs0, [])) := by
  constructor
  · intro h
    simp [Fill, h]
  · intro h1 h2 h3
    simp [Fill, getAbs, exists_, h1, h2, h3]

/-- Witness for C6: the missing-tool and the missing-input case at concrete
oracles. -/
theorem Fill_precondition_checks_witness :
    Fill envNoTool [] "form.pdf" "dest.pdf" [] [] true =
      (.error .toolNotFound, envNoTool.fs0, []) ∧
    Fill envC [] "missing.pdf" "dest.pdf" [] [] true =
      (.error (.fileNotExists "missing.pdf"), envC.fs0, []) :=
  ⟨(Fill_precondition_checks envNoTool [] "form.pdf" "dest.pdf" [] [] true).1 rfl,
   (Fill_precondition_checks envC [] "missing.pdf" "dest.pdf" [] [] true).2 rfl rfl rfl⟩

/-- C9: the part_001 Multistamp revision silently swallows failures of path
resolution and existence checking: a missing first or second input makes it
return no reader together with no error, the filesystem untouched and the
tool never invoked. -/
theorem multistamp_v1_silent_nil (env : Env) (a b : Path) :
    (env.fs0 a = none →
      Multistamp_v1 env a b = ((none, none), env.fs0, [])) ∧
    (∀ x, env.fs0 a = some x → env.fs0 b = none →
      Multistamp_v1 env a b = ((none, none), env.fs0, [])) := by
  constructor
  · intro h
    cases hs : env.statErr a <;> simp [Multistamp_v1, getAbs, exists_, h, hs]
  · intro x h1 h2
    cases hs : env.statErr b <;> simp [Multistamp_v1, getAbs, exists_, h1, h2, hs]

/-- Witness for C9 at a concrete oracle with the first input missing. -/
theorem multistamp_v1_silent_nil_witness :
    Multistamp_v1 envC "missing.pdf" "stamp.pdf" = ((none, none), envC.fs0, []) :=
  (multistamp_v1_silent_nil envC "missing.pdf" "stamp.pdf").1 rfl

/-- C8 (code-bug evidence): in the part_000 revision a fully successful Fill
run leaves the scratch directory behind — the completed event trace holds
only the tool invocation and no RemoveAll event, although the revision's own
comment says the temporary directory is removed on defer and every other
revision does remove it. -/
theorem fill0_leaks_scratch_dir :
    (Fill0 envC [] "form.pdf" "dest.pdf" true).1 = .ok () ∧
    (Fill0 envC [] "form.pdf" "dest.pdf" true).2.2 =
      [Event.toolInvoked "/tmp/fillpdf-1" "pdftk"
        ["/abs/form.pdf", "fill_form", "/tmp/fillpdf-1/data.fdf",
         "output", "/tmp/fillpdf-1/output.pdf", "flatten"]] := by
  constructor <;> rfl

/-- C4 counterexample: FillPDFToBytes with a non-existent source document
does not return an error without invoking the tool — the source is absent
from the oracle filesystem, yet the trace shows the pdftk invocation and the
call even returns the tool's output. -/
theorem fillToBytes_skips_input_check :
    envC.fs0 "missing.pdf" = none ∧
    (FillPDFToBytes envC [] "missing.pdf" "/tmp/t" [] []).1 = .ok [80, 68, 70] ∧
    (FillPDFToBytes envC [] "missing.pdf" "/tmp/t" [] []).2.2 =
      [Event.toolInvoked "/tmp/t" "pdftk"
        ["missing.pdf", "fill_form", "/tmp/t/pdf__ab.fdf", "output", "-", "flatten"]] :=
  ⟨rfl, rfl, rfl⟩

/-- C4 amended: Fill, Merge and the part_002 Multistamp check every input
document for existence while resolving it to an absolute path, and on a
missing input fail with the input-not-found error with an empty trace (no
subprocess); FillPDFToBytes performs no such check on its presumed-absolute
source path and invokes the tool with it regardless; the part_001 Multistamp
also never reaches the tool on a missing first input but returns nil with no
error instead of an error. -/
theorem input_checks_amended (env : Env) (form : List (GoStr × GoVal))
    (src dst a b tdir : Path) (c u : GoStr) (ov : Bool) :
    (env.toolOk = true → env.fs0 src = none → env.statErr src = false →
      (Fill env form src dst c u ov).1 = .error (.fileNotExists src) ∧
      (Fill env form src dst c u ov).2.2 = []) ∧
    (∀ files : List Path, (∀ f, env.statErr f = false) →
      (∃ f ∈ files, env.fs0 f = none) →
      (∃ f, env.fs0 f = none ∧ (Merge env files).1 = .error (.fileNotExists f)) ∧
      (Merge env files).2.2 = []) ∧
    (env.toolOk = true → env.fs0 a = none → env.statErr a = false →
      (Multistamp_v2 env a b).1 = .error (.fileNotExists a) ∧
      (Multistamp_v2 env a b).2.2 = []) ∧
    (∀ x, env.toolOk = true → env.fs0 a = some x → env.fs0 b = none →
      env.statErr b = false →
      (Multistamp_v2 env a b).1 = .error (.fileNotExists b) ∧
      (Multistamp_v2 env a b).2.2 = []) ∧
    (∀ idv, GetID env "pdf_" = .ok idv →
      env.createOk (tdir ++ "/" ++ idv ++ ".fdf") = true →
      (FillPDFToBytes env form src tdir c u).2.2 =
        [Event.toolInvoked tdir "pdftk"
          [src, "fill_form", tdir ++ "/" ++ idv ++ ".fdf", "output", "-", "flatten"]]) ∧
    (env.fs0 a = none →
      (Multistamp_v1 env a b).1 = (none, none) ∧
      (Multistamp_v1 env a b).2.2 = []) := by
  refine ⟨?_, ?_, ?_, ?_, ?_, ?_⟩
  · intro h1 h2 h3
    simp [Fill, getAbs, exists_, h1, h2, h3]
  · intro files hs hmiss
    obtain ⟨f, hfn, heq⟩ := mergeAbsArgs_missing env env.fs0 files hs hmiss
    exact ⟨⟨f, hfn, by simp [Merge, heq]⟩, by simp [Merge, heq]⟩
  · intro h1 h2 h3
    simp [Multistamp_v2, getAbs, exists_, h1, h2, h3]
  · intro x h1 h2 h3 h4
    simp [Multistamp_v2, getAbs, exists_, h1, h2, h3, h4]
  · intro idv hid h2
    cases htr : env.toolRes
        [src, "fill_form", tdir ++ "/" ++ idv ++ ".fdf", "output", "-", "flatten"] <;>
      simp [FillPDFToBytes, createFdfFile, runCommandWithOutput, applyToolOutput,
        hid, h2, htr]
  · intro h
    cases hs : env.statErr a <;>
      simp [Multistamp_v1, getAbs, exists_, h, hs]

/-- Witness for the amended C4 at concrete oracles: a missing input makes
Fill, Merge and the part_002 Multistamp fail without a tool invocation,
while the part_001 Multistamp returns nil with no error. -/
theorem input_checks_amended_witness :
    ((Fill envC [] "missing.pdf" "dest.pdf" [] [] true).1 =
        .error (.fileNotExists "missing.pdf") ∧
      (Fill envC [] "missing.pdf" "dest.pdf" [] [] true).2.2 = []) ∧
    ((∃ f, envC.fs0 f = none ∧
        (Merge envC ["form.pdf", "missing.pdf"]).1 = .error (.fileNotExists f)) ∧
      (Merge envC ["form.pdf", "missing.pdf"]).2.2 = []) ∧
    ((Multistamp_v2 envC "missing.pdf" "stamp.pdf").1 =
        .error (.fileNotExists "missing.pdf") ∧
      (Multistamp_v2 envC "missing.pdf" "stamp.pdf").2.2 = []) ∧
    ((Multistamp_v2 envC "form.pdf" "missing.pdf").1 =
        .error (.fileNotExists "missing.pdf") ∧
      (Multistamp_v2 envC "form.pdf" "missing.pdf").2.2 = []) ∧
    (FillPDFToBytes envC [] "form.pdf" "/tmp/t" [] []).2.2 =
      [Event.toolInvoked "/tmp/t" "pdftk"
        ["form.pdf", "fill_form", "/tmp/t/pdf__ab.fdf", "output", "-", "flatten"]] ∧
    ((Multistamp_v1 envC "missing.pdf" "stamp.pdf").1 = (none, none) ∧
      (Multistamp_v1 envC "missing.pdf" "stamp.pdf").2.2 = []) := by
  have h := input_checks_amended envC [] "missing.pdf" "dest.pdf" "missing.pdf"
    "stamp.pdf" "/tmp/t" [] [] true
  have h2 := input_checks_amended envC [] "form.pdf" "dest.pdf" "form.pdf"
    "missing.pdf" "/tmp/t" [] [] true
  exact ⟨h.1 rfl rfl rfl,
    h.2.1 ["form.pdf", "missing.pdf"] (fun f => rfl) ⟨"missing.pdf", by simp, rfl⟩,
    h.2.2.1 rfl rfl rfl,
    h2.2.2.2.1 [1] rfl rfl rfl rfl,
    h2.2.2.2.2.1 "pdf__ab" rfl rfl,
    h.2.2.2.2.2 rfl⟩

/-- C5: when the destination already exists, Fill without the overwrite flag
fails with the destination-exists error; with the flag set it succeeds, the
old file is removed and the freshly produced output is copied into place, so
the final destination content is exactly the tool's output regardless of the
prior content. -/
theorem Fill_overwrite_semantics (env : Env) (form : List (GoStr × GoVal))
    (src dst tmp : Path) (c u : GoStr) (out old fb : Bytes)
    (h1 : env.toolOk = true)
    (h2 : env.fs0 src = some fb)
    (h4 : env.tempDirRes = some tmp)
    (h5 : ∀ p, env.createOk p = true)
    (habs : env.absFn src ≠ "output")
    (h6 : env.toolRes [env.absFn src, "fill_form", tmp ++ "/data.fdf", "output",
      tmp ++ "/output.pdf", "flatten"] = some out)
    (h7 : env.fs0 (env.absFn dst) = some old)
    (h8 : env.removeOk (env.absFn dst) = true)
    (h9 : env.copyOk = true) (h10 : env.syncOk = true)
    (h11 : strHasPref tmp (env.absFn dst) = false) :
    (Fill env form src dst c u false).1 = .error (.destExists (env.absFn dst)) ∧
    (Fill env form src dst c u true).1 = .ok () ∧
    (Fill env form src dst c u true).2.1 (env.absFn dst) = some out := by
  have hfdf : env.absFn dst ≠ tmp ++ "/data.fdf" := ne_of_not_pref tmp _ _ h11
  have hout : env.absFn dst ≠ tmp ++ "/output.pdf" := ne_of_not_pref tmp _ _ h11
  have hout2 : tmp ++ "/output.pdf" ≠ env.absFn dst := Ne.symm hout
  have hfdfo : tmp ++ "/data.fdf" ≠ "output" :=
    append_ne_of_length tmp "/data.fdf" "output" (by decide)
  have hot := outputTarget_fill (env.absFn src) (tmp ++ "/data.fdf")
    (tmp ++ "/output.pdf") "flatten" habs hfdfo
  have hdash : tmp ++ "/output.pdf" ≠ "-" :=
    append_ne_of_length tmp "/output.pdf" "-" (by decide)
  refine ⟨?_, ?_⟩
  · simp [Fill, getAbs, exists_, createFdfFile, runCommandInPath, applyToolOutput, hot,
      deferRemoveAll, Fs.insert, Fs.erase, copyFile, h1, h2, h4, h5, h6, h7, h8, h9, h10,
      hfdf, hout, hdash]
  · cases hra : env.removeAllOk <;>
      simp [Fill, getAbs, exists_, createFdfFile, runCommandInPath, applyToolOutput, hot,
        deferRemoveAll, Fs.insert, Fs.erase, Fs.eraseUnder, copyFile, h1, h2, h4, h5, h6,
        h7, h8, h9, h10, h11, hfdf, hout, hout2, hdash, hra]

/-- Witness for C5 at the concrete oracle: `/abs/dest.pdf` pre-exists with
content [9, 9] and ends up holding the tool output. -/
theorem Fill_overwrite_semantics_witness :
    (Fill envC [] "form.pdf" "dest.pdf" [] [] false).1 =
      .error (.destExists (envC.absFn "dest.pdf")) ∧
    (Fill envC [] "form.pdf" "dest.pdf" [] [] true).1 = .ok () ∧
    (Fill envC [] "form.pdf" "dest.pdf" [] [] true).2.1 (envC.absFn "dest.pdf") =
      some [80, 68, 70] :=
  Fill_overwrite_semantics envC [] "form.pdf" "dest.pdf" "/tmp/fillpdf-1" [] []
    [80, 68, 70] [9, 9] [1] rfl rfl rfl (fun p => rfl) (by decide) rfl rfl rfl rfl rfl
    (by decide)

/-- C7 amended: the tool output is fully materialized as a scratch file and
only then copied to the destination — on a clean copy the destination holds
exactly the output bytes — but the copy truncates the destination in place,
so a failure during the copy leaves a partial (here empty) destination file
behind rather than leaving the destination untouched. -/
theorem Fill_copy_materialization (env : Env) (form : List (GoStr × GoVal))
    (src dst tmp : Path) (c u : GoStr) (ov : Bool) (out fb : Bytes)
    (h1 : env.toolOk = true)
    (h2 : env.fs0 src = some fb)
    (h4 : env.tempDirRes = some tmp)
    (h5 : ∀ p, env.createOk p = true)
    (habs : env.absFn src ≠ "output")
    (h6 : env.toolRes [env.absFn src, "fill_form", tmp ++ "/data.fdf", "output",
      tmp ++ "/output.pdf", "flatten"] = some out)
    (h7 : env.fs0 (env.absFn dst) = none)
    (hst : env.statErr (env.absFn dst) = false)
    (h11 : strHasPref tmp (env.absFn dst) = false) :
    (env.copyOk = true → env.syncOk = true →
      (Fill env form src dst c u ov).1 = .ok () ∧
      (Fill env form src dst c u ov).2.1 (env.absFn dst) = some out) ∧
    (env.copyOk = false →
      (Fill env form src dst c u ov).1 = .error .copyFailed ∧
      (Fill env form src dst c u ov).2.1 (env.absFn dst) = some []) := by
  have hfdf : env.absFn dst ≠ tmp ++ "/data.fdf" := ne_of_not_pref tmp _ _ h11
  have hout : env.absFn dst ≠ tmp ++ "/output.pdf" := ne_of_not_pref tmp _ _ h11
  have hout2 : tmp ++ "/output.pdf" ≠ env.absFn dst := Ne.symm hout
  have hfdfo : tmp ++ "/data.fdf" ≠ "output" :=
    append_ne_of_length tmp "/data.fdf" "output" (by decide)
  have hot := outputTarget_fill (env.absFn src) (tmp ++ "/data.fdf")
    (tmp ++ "/output.pdf") "flatten" habs hfdfo
  have hdash : tmp ++ "/output.pdf" ≠ "-" :=
    append_ne_of_length tmp "/output.pdf" "-" (by decide)
  constructor
  · intro h9 h10
    cases hra : env.removeAllOk <;>
      simp [Fill, getAbs, exists_, createFdfFile, runCommandInPath, applyToolOutput, hot,
        deferRemoveAll, Fs.insert, Fs.erase, Fs.eraseUnder, copyFile, h1, h2, h4, h5, h6,
        h7, h9, h10, hst, h11, hfdf, hout, hout2, hdash, hra]
  · intro h9
    cases hra : env.removeAllOk <;>
      simp [Fill, getAbs, exists_, createFdfFile, runCommandInPath, applyToolOutput, hot,
        deferRemoveAll, Fs.insert, Fs.erase, Fs.eraseUnder, copyFile, h1, h2, h4, h5, h6,
        h7, h9, hst, h11, hfdf, hout, hout2, hdash, hra]

/-- Witness for the amended C7: the success case at the all-good oracle and
the copy-failure case at the oracle whose copy fails. -/
theorem Fill_copy_materialization_witness :
    ((Fill envC [] "form.pdf" "dest2.pdf" [] [] true).1 = .ok () ∧
      (Fill envC [] "form.pdf" "dest2.pdf" [] [] true).2.1 (envC.absFn "dest2.pdf") =
        some [80, 68, 70]) ∧
    ((Fill envCopyFail [] "form.pdf" "dest2.pdf" [] [] true).1 = .error .copyFailed ∧
      (Fill envCopyFail [] "form.pdf" "dest2.pdf" [] [] true).2.1
        (envCopyFail.absFn "dest2.pdf") = some []) :=
  ⟨(Fill_copy_materialization envC [] "form.pdf" "dest2.pdf" "/tmp/fillpdf-1" [] [] true
      [80, 68, 70] [1] rfl rfl rfl (fun p => rfl) (by decide) rfl rfl rfl
      (by decide)).1 rfl rfl,
   (Fill_copy_materialization envCopyFail [] "form.pdf" "dest2.pdf" "/tmp/fillpdf-1" [] []
      true [80, 68, 70] [1] rfl rfl rfl (fun p => rfl) (by decide) rfl rfl rfl
      (by decide)).2 rfl⟩

/-- C7 counterexample: on a concrete failure path — the byte copy fails
right after the destination is created — Fill returns an error while a
truncated destination file (not a valid artifact, and absent beforehand) is
left behind. -/
theorem fill_partial_destination :
    (Fill envCopyFail [] "form.pdf" "dest2.pdf" [] [] true).1 = .error .copyFailed ∧
    (Fill envCopyFail [] "form.pdf" "dest2.pdf" [] [] true).2.1 "/abs/dest2.pdf" =
      some [] ∧
    envCopyFail.fs0 "/abs/dest2.pdf" = none :=
  ⟨rfl, rfl, rfl⟩

end Fillpdf
